import Mathlib

/-!
Formal model of the riban heating controller core (src/heatingcontroller.cpp).

The C globals are gathered into one record `CState`; the MCU EEPROM is a byte
map `Nat → Nat` (reads mask to a byte, writes store a byte); the one-wire bus
and the DS1307 clock are external inputs, passed in as per-sensor readings
(`Nat → Int`, with -2000 the error sentinel the driver returns) and as the
current `timestamp`.  All integer arithmetic of the source is 16-bit at most
and stays far from overflow in every comparison modelled here, so `Nat`/`Int`
are used directly, with explicit `% 256` / `% 65536` where the source narrows
to `byte` / 16-bit quantities (EEPROM writes, day-bit shift, record bytes).
-/

namespace Heating

/-- Pointwise update of a total map at one index. -/
def updf {α : Type} (f : Nat → α) (i : Nat) (v : α) : Nat → α :=
  fun j => if j = i then v else f j

def MAX_SENSORS : Nat := 10
def MAX_EVENTS : Nat := 100
def EEPROM_SENSOR_START : Nat := 0
def EEPROM_SENSOR_SIZE : Nat := 10
def EEPROM_ZONE_START : Nat := 100
def EEPROM_ZONE_SIZE : Nat := 2
def EEPROM_EVENT_START : Nat := 200
def EEPROM_EVENT_SIZE : Nat := 10

/-- struct timestamp: minutes since 00:00 and a bitwise day flag (1 = Sunday). -/
structure timestamp where
  nTime : Nat
  nDay : Nat
  deriving DecidableEq

/-- struct sensor: 8-byte one-wire UID, current value (C/100), assigned zone. -/
structure sensor where
  address : Nat → Nat
  nValue : Int
  nZone : Nat

/-- struct event: minutes since midnight, day bitmask (LSB = Sunday), zone, set-point value. -/
structure event where
  nTime : Nat
  nDays : Nat
  nZone : Nat
  nValue : Int
  deriving DecidableEq

/-- struct zone: set-point (C/10), hysteresis (C/10), call-for-heat state, space-heating flag. -/
structure zone where
  nSetpoint : Int
  nHyst : Nat
  bOn : Bool
  bSpace : Bool
  deriving DecidableEq

/-- The global mutable state of the program. -/
structure CState where
  g_sensors : Nat → sensor
  g_nSensorQuant : Nat
  g_events : Nat → event
  g_nEventQuant : Nat
  g_zones : Nat → zone
  g_tsNow : timestamp
  g_tsNextEvent : timestamp
  eeprom : Nat → Nat

/-- EEPROM.write: stores one byte. -/
def EEPROMwrite (m : Nat → Nat) (addr v : Nat) : Nat → Nat := updf m addr (v % 256)

/-- EEPROM.read: yields one byte. -/
def EEPROMread (m : Nat → Nat) (addr : Nat) : Nat := m addr % 256

/-- Reinterpret a 16-bit unsigned value as the C signed int it denotes. -/
def toInt16 (u : Nat) : Int := if u < 32768 then (u : Int) else (u : Int) - 65536

/-- SaveEvent: the six EEPROM byte writes for one event record (big-endian
time and value; the value's low 16 bits are taken two's-complement). -/
def saveEventBytes (m : Nat → Nat) (nEvent : Nat) (e : event) : Nat → Nat :=
  let base := nEvent * EEPROM_EVENT_SIZE + EEPROM_EVENT_START
  let u := (Int.emod e.nValue 65536).toNat
  EEPROMwrite (EEPROMwrite (EEPROMwrite (EEPROMwrite (EEPROMwrite (EEPROMwrite m
    base e.nDays)
    (base + 1) ((e.nTime &&& 0xFF00) >>> 8))
    (base + 2) (e.nTime &&& 0xFF))
    (base + 3) e.nZone)
    (base + 4) ((u &&& 0xFF00) >>> 8))
    (base + 5) (u &&& 0xFF)

/-- Byte o of the stored form of an event record, as SaveEvent writes it. -/
def eventByte (e : event) : Nat → Nat
  | 0 => e.nDays % 256
  | 1 => ((e.nTime &&& 0xFF00) >>> 8) % 256
  | 2 => (e.nTime &&& 0xFF) % 256
  | 3 => e.nZone % 256
  | 4 => ((((Int.emod e.nValue 65536).toNat) &&& 0xFF00) >>> 8) % 256
  | 5 => (((Int.emod e.nValue 65536).toNat) &&& 0xFF) % 256
  | _ + 6 => 0

/-- SaveZone: two EEPROM byte writes at EEPROM_ZONE_START + 2 * nZone. -/
def SaveZone (s : CState) (nZone : Nat) : CState :=
  let m1 := EEPROMwrite s.eeprom (nZone * EEPROM_ZONE_SIZE + EEPROM_ZONE_START) (s.g_zones nZone).nHyst
  let m2 := EEPROMwrite m1 (nZone * EEPROM_ZONE_SIZE + EEPROM_ZONE_START + 1) (if (s.g_zones nZone).bSpace then 1 else 0)
  { s with eeprom := m2 }

/-- GetTemperature(unsigned int): on index out of range or a -2000 error
result from the bus the state is unchanged; otherwise the sensor's stored
value is updated with the reading. -/
def GetTemperature (s : CState) (nSensor : Nat) (reading : Int) : CState :=
  if MAX_SENSORS ≤ nSensor then s
  else if reading = -2000 then s
  else { s with g_sensors := updf s.g_sensors nSensor { s.g_sensors nSensor with nValue := reading } }

/-- The two call-for-heat comparisons of loop() (lines 141-145): first
`nSetpoint < nValue` forces off, then `nSetpoint - nHyst > nValue / 10`
forces on; both ifs run in sequence (the second one wins when both fire).
C integer division truncates toward zero, hence Int.div. -/
def evalZone (z : zone) (v : Int) : zone :=
  let z1 := if z.nSetpoint < v then { z with bOn := false } else z
  if z1.nSetpoint - (z1.nHyst : Int) > Int.tdiv v 10 then { z1 with bOn := true } else z1

/-- The hysteresis rule exactly as the specification states it (section 4.3):
over set-point forces off, strictly below set-point minus hysteresis forces
on, otherwise the previous state is retained.  Kept for comparison with
`evalZone`, which is what the code does. -/
def specEvalZone (z : zone) (v : Int) : zone :=
  if v > z.nSetpoint then { z with bOn := false }
  else if v < z.nSetpoint - (z.nHyst : Int) then { z with bOn := true }
  else z

/-- One iteration of the sensor loop in loop(): read the sensor, evaluate its
zone, and accumulate the boiler and pump flags from the zone state as it
stands right after this sensor's evaluation. -/
def sensorStep (readings : Nat → Int) (acc : CState × Bool × Bool) (nSensor : Nat) :
    CState × Bool × Bool :=
  let s1 := GetTemperature acc.1 nSensor (readings nSensor)
  let nz := (s1.g_sensors nSensor).nZone
  let z2 := evalZone (s1.g_zones nz) (s1.g_sensors nSensor).nValue
  let s2 := { s1 with g_zones := updf s1.g_zones nz z2 }
  (s2, acc.2.1 || z2.bOn, acc.2.2 || (if z2.bSpace then z2.bOn else false))

/-- Wrap of the next-event day bit when no more events remain today
(lines 815-818): shift the byte left one position, wrap to Sunday past 127. -/
def wrapDay (d : Nat) : Nat :=
  let d2 := (d <<< 1) % 256
  if 127 < d2 then 1 else d2

/-- One iteration of the ProcessEvents scan (lines 797-811): apply a due
event's set-point, and track the minimum later-today event as the next one. -/
def processEventStep (t : CState) (nEvent : Nat) : CState :=
  let e := t.g_events nEvent
  let t1 :=
    if e.nTime = t.g_tsNow.nTime ∧ (e.nDays &&& t.g_tsNow.nDay) ≠ 0 then
      { t with g_zones := updf t.g_zones e.nZone { t.g_zones e.nZone with nSetpoint := e.nValue } }
    else t
  if (e.nDays &&& t1.g_tsNow.nDay) ≠ 0 ∧ t1.g_tsNow.nTime < e.nTime ∧ e.nTime < t1.g_tsNextEvent.nTime then
    { t1 with g_tsNextEvent := { nTime := e.nTime, nDay := t1.g_tsNow.nDay } }
  else t1

/-- ProcessEvents: reset the next-event minute to the 0xFFFF sentinel, scan
all events, and if no candidate was found advance the next-event day bit. -/
def ProcessEvents (s : CState) : CState :=
  let s0 := { s with g_tsNextEvent := { nTime := 0xFFFF, nDay := s.g_tsNextEvent.nDay } }
  let s1 := (List.range s.g_nEventQuant).foldl processEventStep s0
  if s1.g_tsNextEvent.nTime = 0xFFFF then
    { s1 with g_tsNextEvent := { nTime := 0, nDay := wrapDay s1.g_tsNextEvent.nDay } }
  else s1

/-- AddEvent: append at the current count unless the fixed maximum is
reached; the byte and 16-bit unsigned parameters narrow as in C. -/
def AddEvent (s : CState) (nZone nDays nTime : Nat) (nSetpoint : Int) (bSave : Bool) : CState :=
  if MAX_EVENTS ≤ s.g_nEventQuant then s
  else
    let e : event := { nTime := nTime % 65536, nDays := nDays % 256, nZone := nZone % 256, nValue := nSetpoint }
    let s1 := { s with g_events := updf s.g_events s.g_nEventQuant e }
    let s2 := if bSave then { s1 with eeprom := saveEventBytes s1.eeprom s.g_nEventQuant e } else s1
    { s2 with g_nEventQuant := s.g_nEventQuant + 1 }

/-- The compaction loop of DeleteEvent: starting at slot idx, copy the next
slot down and persist the slot, n times in all (n = count - index in the
source, so the final iteration copies from slot count). -/
def shiftFrom : Nat → (Nat → event) → (Nat → Nat) → Nat → ((Nat → event) × (Nat → Nat))
  | _, ev, ee, 0 => (ev, ee)
  | idx, ev, ee, Nat.succ n =>
      shiftFrom (idx + 1) (updf ev idx (ev (idx + 1))) (saveEventBytes ee idx (ev (idx + 1))) n

/-- DeleteEvent (lines 840-855): silently no-op when the index is not below
the count, otherwise shift every later record one slot down (the loop runs
for i in [index, count), reading slot i+1 each time) and decrement the count. -/
def DeleteEvent (s : CState) (nEvent : Nat) : CState :=
  if s.g_nEventQuant ≤ nEvent then s
  else
    let p := shiftFrom nEvent s.g_events s.eeprom (s.g_nEventQuant - nEvent)
    { s with g_events := p.1, eeprom := p.2, g_nEventQuant := s.g_nEventQuant - 1 }

/-- Slots of g_events read by DeleteEvent's compaction loop: iteration i runs
for i in [nEvent, nEventQuant) and reads slot i + 1 (lines 846-851). -/
def deleteReadIndices (nEvent nEventQuant : Nat) : List Nat :=
  (List.range (nEventQuant - nEvent)).map (fun k => nEvent + k + 1)

/-- Byte-for-byte address equality, the net effect of the duplicate scan's
inner loop in AddSensor (all 8 bytes equal). -/
def addrMatch (a b : Nat → Nat) : Bool := (List.range 8).all (fun i => a i == b i)

/-- The duplicate scan of AddSensor: first configured sensor whose full
8-byte address equals the given one. -/
def findDup (s : CState) (a : Nat → Nat) : Option Nat :=
  (List.range s.g_nSensorQuant).find? (fun n => addrMatch a (s.g_sensors n).address)

/-- Tail of AddSensor shared by both branches: set the record's zone, persist
the zone byte, then refresh the sensor's reading from the bus. -/
def writeSensorZone (s : CState) (nSensor nZone : Nat) (reading : Int) : CState :=
  let s2 := { s with
    g_sensors := updf s.g_sensors nSensor { s.g_sensors nSensor with nZone := nZone },
    eeprom := EEPROMwrite s.eeprom (nSensor * 10 + 8) nZone }
  GetTemperature s2 nSensor reading

/-- AddSensor (lines 538-581): on an address match update the existing
record's zone; otherwise append a new record if capacity remains, persisting
the address bytes; both paths end with the zone write and a bus read. -/
def AddSensor (s : CState) (pAddress : Nat → Nat) (nZone : Nat) (reading : Int) : CState :=
  let a := fun i => pAddress i % 256
  let zn := nZone % 256
  match findDup s a with
  | some n => writeSensorZone s n zn reading
  | none =>
    if MAX_SENSORS ≤ s.g_nSensorQuant then s
    else
      let n := s.g_nSensorQuant
      let s1 := { s with
        g_sensors := updf s.g_sensors n
          { s.g_sensors n with address := fun i => if i < 8 then a i else (s.g_sensors n).address i },
        eeprom := (List.range 8).foldl (fun m i => EEPROMwrite m (n * 10 + i) (a i)) s.eeprom,
        g_nSensorQuant := n + 1 }
      writeSensorZone s1 n zn reading

/-- Zone record as ReadConfig loads it: hysteresis byte and space flag from
the zone region; set-point and on/off state are not persisted. -/
def readZone (ee : Nat → Nat) (nZone : Nat) (z : zone) : zone :=
  { z with
    nHyst := EEPROMread ee (nZone * EEPROM_ZONE_SIZE + EEPROM_ZONE_START),
    bSpace := EEPROMread ee (nZone * EEPROM_ZONE_SIZE + EEPROM_ZONE_START + 1) == 1 }

/-- Sensor-region scan of ReadConfig: stop at the first record whose first
address byte is zero; fuel bounds the loop at MAX_SENSORS. -/
def scanSensors (ee : Nat → Nat) : (Nat → sensor) → Nat → Nat → ((Nat → sensor) × Nat)
  | sens, q, 0 => (sens, q)
  | sens, q, Nat.succ fuel =>
    if EEPROMread ee (q * EEPROM_SENSOR_SIZE + EEPROM_SENSOR_START) = 0 then (sens, q)
    else
      scanSensors ee
        (updf sens q
          { address := fun i =>
              if i < 8 then EEPROMread ee (q * EEPROM_SENSOR_SIZE + EEPROM_SENSOR_START + i)
              else (sens q).address i,
            nValue := (sens q).nValue,
            nZone := EEPROMread ee (q * EEPROM_SENSOR_SIZE + EEPROM_SENSOR_START + 8) })
        (q + 1) fuel

/-- Event-region scan of ReadConfig: the day byte is stored into the slot
before the zero test, per the source; fuel bounds the loop at MAX_EVENTS. -/
def scanEvents (ee : Nat → Nat) : (Nat → event) → Nat → Nat → ((Nat → event) × Nat)
  | evs, q, 0 => (evs, q)
  | evs, q, Nat.succ fuel =>
    let base := q * EEPROM_EVENT_SIZE + EEPROM_EVENT_START
    let d := EEPROMread ee base
    if d = 0 then (updf evs q { evs q with nDays := d }, q)
    else
      scanEvents ee
        (updf evs q
          { nTime := (EEPROMread ee (base + 1)) <<< 8 ||| EEPROMread ee (base + 2),
            nDays := d,
            nZone := EEPROMread ee (base + 3),
            nValue := toInt16 ((EEPROMread ee (base + 4)) <<< 8 ||| EEPROMread ee (base + 5)) })
        (q + 1) fuel

/-- ReadConfig (lines 202-237): scan the sensor and event regions up to their
zero sentinels, and always read all ten 2-byte zone records. -/
def ReadConfig (s : CState) : CState :=
  let ps := scanSensors s.eeprom s.g_sensors 0 MAX_SENSORS
  let pe := scanEvents s.eeprom s.g_events 0 MAX_EVENTS
  let zs := (List.range 10).foldl (fun zmap nZone => updf zmap nZone (readZone s.eeprom nZone (zmap nZone))) s.g_zones
  { s with g_sensors := ps.1, g_nSensorQuant := ps.2,
           g_events := pe.1, g_nEventQuant := pe.2,
           g_zones := zs }

/-- Clock-and-scheduler phase of one minute-boundary pass of loop()
(lines 131-134): update the clock, then run ProcessEvents when the
next-event gate matches now. -/
def cycleS1 (s : CState) (now : timestamp) : CState :=
  let s0 := { s with g_tsNow := now }
  if s0.g_tsNextEvent.nTime = s0.g_tsNow.nTime ∧ (s0.g_tsNextEvent.nDay &&& s0.g_tsNow.nDay) ≠ 0 then
    ProcessEvents s0
  else s0

/-- One minute-boundary pass of loop() (lines 129-152): the clock/scheduler
phase, then the sensor scan accumulating the boiler and pump outputs. -/
def cycle (s : CState) (now : timestamp) (readings : Nat → Int) : CState × Bool × Bool :=
  (List.range (cycleS1 s now).g_nSensorQuant).foldl (sensorStep readings) (cycleS1 s now, false, false)

/-- Logical OR of the on state over the ten zones, the aggregate the
specification describes for the boiler output. -/
def anyZoneOn (s : CState) : Bool := (List.range 10).any (fun z => (s.g_zones z).bOn)

/-- Logical OR of the on state over the ten zones restricted to space
heating zones, the aggregate the specification describes for the pump. -/
def anySpaceZoneOn (s : CState) : Bool :=
  (List.range 10).any (fun z => (s.g_zones z).bSpace && (s.g_zones z).bOn)

/-! Concrete states used by witnesses and counterexamples. -/

def zone0 : zone := { nSetpoint := 0, nHyst := 0, bOn := false, bSpace := false }
def sensor0 : sensor := { address := fun _ => 1, nValue := 0, nZone := 0 }
def event0 : event := { nTime := 0, nDays := 0, nZone := 0, nValue := 0 }

def baseState : CState :=
  { g_sensors := fun _ => sensor0, g_nSensorQuant := 0,
    g_events := fun _ => event0, g_nEventQuant := 0,
    g_zones := fun _ => zone0,
    g_tsNow := { nTime := 0, nDay := 1 },
    g_tsNextEvent := { nTime := 999, nDay := 1 },
    eeprom := fun _ => 0 }

def zC1 : zone := { nSetpoint := 200, nHyst := 20, bOn := false, bSpace := true }

def eA : event := { nTime := 420, nDays := 2, nZone := 0, nValue := 100 }
def eB : event := { nTime := 420, nDays := 2, nZone := 0, nValue := 150 }
def eC : event := { nTime := 7, nDays := 7, nZone := 7, nValue := 7 }

def sC2 : CState :=
  { baseState with
    g_events := updf (updf (fun _ => event0) 0 eA) 1 eB, g_nEventQuant := 2,
    g_tsNow := { nTime := 420, nDay := 2 } }

def sC3 : CState :=
  { baseState with
    g_events := updf (updf (updf (fun _ => event0) 0 eA) 1 eB) 2 eC, g_nEventQuant := 2 }

def sC4 : CState :=
  { baseState with g_zones := fun _ => { nSetpoint := 0, nHyst := 55, bOn := false, bSpace := true } }

def sC5 : CState :=
  { baseState with
    g_sensors := updf (updf (fun _ => sensor0) 0 { address := fun _ => 1, nValue := 0, nZone := 0 })
      1 { address := fun _ => 2, nValue := 0, nZone := 0 },
    g_nSensorQuant := 2,
    g_zones := updf (fun _ => zone0) 0 { nSetpoint := 200, nHyst := 20, bOn := false, bSpace := true } }

def rC5 : Nat → Int := fun n => if n = 0 then 100 else 1800

def sC5w : CState := { sC5 with g_nSensorQuant := 1 }

def sC6 : CState :=
  { baseState with
    g_sensors := updf (fun _ => sensor0) 0 { address := fun _ => 1, nValue := 5000, nZone := 0 },
    g_nSensorQuant := 1,
    g_zones := updf (fun _ => zone0) 0 { nSetpoint := 200, nHyst := 0, bOn := true, bSpace := true } }

def rFail : Nat → Int := fun _ => -2000

def sC7 : CState := { baseState with g_nEventQuant := 100, g_nSensorQuant := 10 }

def addrA : Nat → Nat := fun i => if i < 8 then i + 1 else 0

def sC8 : CState :=
  { baseState with
    g_sensors := updf (fun _ => sensor0) 0 { address := addrA, nValue := 0, nZone := 1 },
    g_nSensorQuant := 1 }

def sC9 : CState :=
  { baseState with g_tsNow := { nTime := 500, nDay := 4 }, g_tsNextEvent := { nTime := 300, nDay := 1 } }

def sC2w : CState := { sC2 with g_nEventQuant := 1 }

/-! Helper lemmas. -/

theorem findDup_eq_none (s : CState) (a : Nat → Nat)
    (h : ∀ n, n < s.g_nSensorQuant → addrMatch a ((s.g_sensors n).address) = false) :
    findDup s a = none := by
  rw [findDup, List.find?_eq_none]
  intro n hn
  rw [List.mem_range] at hn
  simp [h n hn]

theorem find?_range_eq_some {p : Nat → Bool} {L n : Nat} (hn : n < L) (hp : p n = true)
    (hf : ∀ m, m < n → p m = false) : (List.range L).find? p = some n := by
  induction L with
  | zero => omega
  | succ L ih =>
    rw [List.range_succ, List.find?_append]
    rcases Nat.lt_or_ge n L with h | h
    · rw [ih h]; rfl
    · have hnone : (List.range L).find? p = none := by
        rw [List.find?_eq_none]
        intro m hm
        rw [List.mem_range] at hm
        simp [hf m (by omega)]
      have hnL : n = L := by omega
      subst hnL
      rw [hnone]
      simp [List.find?, hp]

theorem findDup_eq_some (s : CState) (a : Nat → Nat) (n : Nat) (hn : n < s.g_nSensorQuant)
    (hp : addrMatch a ((s.g_sensors n).address) = true)
    (hf : ∀ m, m < n → addrMatch a ((s.g_sensors m).address) = false) :
    findDup s a = some n := by
  rw [findDup]
  exact find?_range_eq_some hn hp hf

theorem pestep_frame (t : CState) (n : Nat) :
    (processEventStep t n).g_sensors = t.g_sensors ∧
    (processEventStep t n).g_nSensorQuant = t.g_nSensorQuant ∧
    (processEventStep t n).g_events = t.g_events ∧
    (processEventStep t n).g_nEventQuant = t.g_nEventQuant ∧
    (processEventStep t n).g_tsNow = t.g_tsNow ∧
    (processEventStep t n).eeprom = t.eeprom := by
  simp only [processEventStep]
  split_ifs <;> simp

theorem pefold_frame (L : List Nat) : ∀ t : CState,
    ((L.foldl processEventStep t).g_sensors = t.g_sensors ∧
     (L.foldl processEventStep t).g_nSensorQuant = t.g_nSensorQuant ∧
     (L.foldl processEventStep t).g_events = t.g_events ∧
     (L.foldl processEventStep t).g_nEventQuant = t.g_nEventQuant ∧
     (L.foldl processEventStep t).g_tsNow = t.g_tsNow ∧
     (L.foldl processEventStep t).eeprom = t.eeprom) := by
  induction L with
  | nil => intro t; exact ⟨rfl, rfl, rfl, rfl, rfl, rfl⟩
  | cons a L ih =>
    intro t
    have h1 := pestep_frame t a
    have h2 := ih (processEventStep t a)
    simp only [List.foldl_cons]
    exact ⟨h2.1.trans h1.1, h2.2.1.trans h1.2.1, h2.2.2.1.trans h1.2.2.1,
      h2.2.2.2.1.trans h1.2.2.2.1, h2.2.2.2.2.1.trans h1.2.2.2.2.1,
      h2.2.2.2.2.2.trans h1.2.2.2.2.2⟩

theorem pestep_zones_eq (t : CState) (n Z : Nat)
    (h : ¬(((t.g_events n).nTime = t.g_tsNow.nTime ∧ ((t.g_events n).nDays &&& t.g_tsNow.nDay) ≠ 0)
        ∧ (t.g_events n).nZone = Z)) :
    (processEventStep t n).g_zones Z = t.g_zones Z := by
  simp only [processEventStep]
  split_ifs with h1 h2 h3 <;> simp only [updf] <;>
    first
    | rfl
    | (rw [if_neg]; intro hZ; exact h ⟨h1, hZ.symm⟩)

theorem pestep_zones_set (t : CState) (n : Nat)
    (h : (t.g_events n).nTime = t.g_tsNow.nTime ∧ ((t.g_events n).nDays &&& t.g_tsNow.nDay) ≠ 0) :
    ((processEventStep t n).g_zones ((t.g_events n).nZone)).nSetpoint = (t.g_events n).nValue := by
  simp only [processEventStep, if_pos h]
  split_ifs <;> simp [updf]

theorem pefold_zone_frozen (Z : Nat) : ∀ (L : List Nat) (t : CState),
    (∀ j ∈ L, ¬(((t.g_events j).nTime = t.g_tsNow.nTime ∧ ((t.g_events j).nDays &&& t.g_tsNow.nDay) ≠ 0)
        ∧ (t.g_events j).nZone = Z)) →
    (L.foldl processEventStep t).g_zones Z = t.g_zones Z := by
  intro L
  induction L with
  | nil => intro t _; rfl
  | cons a L ih =>
    intro t h
    have hframe := pestep_frame t a
    simp only [List.foldl_cons]
    rw [ih (processEventStep t a) ?_, pestep_zones_eq t a Z (h a (by simp))]
    intro j hj
    rw [hframe.2.2.1, hframe.2.2.2.2.1]
    exact h j (by simp [hj])

theorem pestep_next_eq (t : CState) (n : Nat)
    (h : ¬(((t.g_events n).nDays &&& t.g_tsNow.nDay) ≠ 0 ∧ t.g_tsNow.nTime < (t.g_events n).nTime)) :
    (processEventStep t n).g_tsNextEvent = t.g_tsNextEvent := by
  simp only [processEventStep]
  by_cases h1 : (t.g_events n).nTime = t.g_tsNow.nTime ∧ ((t.g_events n).nDays &&& t.g_tsNow.nDay) ≠ 0
  · rw [if_pos h1, if_neg (fun hc => h ⟨hc.1, hc.2.1⟩)]
  · rw [if_neg h1, if_neg (fun hc => h ⟨hc.1, hc.2.1⟩)]

theorem pefold_next_frozen : ∀ (L : List Nat) (t : CState),
    (∀ j ∈ L, ¬(((t.g_events j).nDays &&& t.g_tsNow.nDay) ≠ 0 ∧ t.g_tsNow.nTime < (t.g_events j).nTime)) →
    (L.foldl processEventStep t).g_tsNextEvent = t.g_tsNextEvent := by
  intro L
  induction L with
  | nil => intro t _; rfl
  | cons a L ih =>
    intro t h
    have hframe := pestep_frame t a
    simp only [List.foldl_cons]
    rw [ih (processEventStep t a) ?_, pestep_next_eq t a (h a (by simp))]
    intro j hj
    rw [hframe.2.2.1, hframe.2.2.2.2.1]
    exact h j (by simp [hj])

theorem PE_zones (s : CState) :
    (ProcessEvents s).g_zones
      = ((List.range s.g_nEventQuant).foldl processEventStep
          { s with g_tsNextEvent := { nTime := 0xFFFF, nDay := s.g_tsNextEvent.nDay } }).g_zones := by
  simp only [ProcessEvents]
  split_ifs <;> rfl

theorem shiftFrom_fst : ∀ (n idx : Nat) (ev : Nat → event) (ee : Nat → Nat) (k : Nat),
    (shiftFrom idx ev ee n).1 k = if idx ≤ k ∧ k < idx + n then ev (k + 1) else ev k := by
  intro n
  induction n with
  | zero =>
    intro idx ev ee k
    rw [shiftFrom, if_neg (by omega)]
  | succ n ih =>
    intro idx ev ee k
    rw [shiftFrom, ih (idx + 1)]
    by_cases h2 : k = idx
    · rw [if_neg (show ¬(idx + 1 ≤ k ∧ k < idx + 1 + n) from by omega)]
      simp only [updf]
      rw [if_pos h2, if_pos (show idx ≤ k ∧ k < idx + (n + 1) from by omega), h2]
    · by_cases h1 : idx + 1 ≤ k ∧ k < idx + 1 + n
      · rw [if_pos h1]
        simp only [updf]
        rw [if_neg (show ¬(k + 1 = idx) from by omega),
            if_pos (show idx ≤ k ∧ k < idx + (n + 1) from by omega)]
      · rw [if_neg h1]
        simp only [updf]
        rw [if_neg h2, if_neg (show ¬(idx ≤ k ∧ k < idx + (n + 1)) from by omega)]

theorem saveEventBytes_low (m : Nat → Nat) (k : Nat) (e : event) (a : Nat)
    (ha : a < k * EEPROM_EVENT_SIZE + EEPROM_EVENT_START) :
    saveEventBytes m k e a = m a := by
  simp only [saveEventBytes, EEPROMwrite, updf, EEPROM_EVENT_SIZE, EEPROM_EVENT_START] at ha ⊢
  split_ifs <;> first | rfl | omega

theorem saveEventBytes_at (m : Nat → Nat) (k : Nat) (e : event) (o : Nat) (ho : o < 6) :
    saveEventBytes m k e (k * EEPROM_EVENT_SIZE + EEPROM_EVENT_START + o) = eventByte e o := by
  interval_cases o <;>
    simp only [saveEventBytes, EEPROMwrite, updf, eventByte, EEPROM_EVENT_SIZE, EEPROM_EVENT_START] <;>
    split_ifs <;> first | rfl | omega

theorem shiftFrom_snd_low : ∀ (n idx : Nat) (ev : Nat → event) (ee : Nat → Nat) (a : Nat),
    a < idx * EEPROM_EVENT_SIZE + EEPROM_EVENT_START →
    (shiftFrom idx ev ee n).2 a = ee a := by
  intro n
  induction n with
  | zero => intro idx ev ee a ha; rfl
  | succ n ih =>
    intro idx ev ee a ha
    rw [shiftFrom, ih (idx + 1)]
    · exact saveEventBytes_low ee idx (ev (idx + 1)) a ha
    · simp only [EEPROM_EVENT_SIZE, EEPROM_EVENT_START] at ha ⊢
      omega

theorem shiftFrom_snd_slot : ∀ (n idx : Nat) (ev : Nat → event) (ee : Nat → Nat) (k o : Nat),
    idx ≤ k → k < idx + n → o < 6 →
    (shiftFrom idx ev ee n).2 (k * EEPROM_EVENT_SIZE + EEPROM_EVENT_START + o)
      = eventByte (ev (k + 1)) o := by
  intro n
  induction n with
  | zero => intro idx ev ee k o h1 h2 ho; omega
  | succ n ih =>
    intro idx ev ee k o h1 h2 ho
    rw [shiftFrom]
    by_cases hk : k = idx
    · subst hk
      rw [shiftFrom_snd_low n (k + 1) _ _ _ ?_]
      · exact saveEventBytes_at ee k (ev (k + 1)) o ho
      · simp only [EEPROM_EVENT_SIZE, EEPROM_EVENT_START]
        omega
    · rw [ih (idx + 1) _ _ k o (by omega) (by omega) ho]
      have hupd : (updf ev idx (ev (idx + 1))) (k + 1) = ev (k + 1) := by
        simp only [updf]
        rw [if_neg (by omega)]
      rw [hupd]

theorem foldl_updf_hi {α : Type} (g : Nat → α → α) :
    ∀ (L : Nat) (m : Nat → α) (k : Nat), L ≤ k →
      ((List.range L).foldl (fun mm i => updf mm i (g i (mm i))) m) k = m k := by
  intro L
  induction L with
  | zero => intro m k _; rfl
  | succ L ih =>
    intro m k hk
    rw [List.range_succ, List.foldl_append]
    simp only [List.foldl_cons, List.foldl_nil, updf]
    rw [if_neg (show ¬(k = L) from by omega)]
    exact ih m k (by omega)

theorem foldl_updf_get {α : Type} (g : Nat → α → α) :
    ∀ (L : Nat) (m : Nat → α) (k : Nat), k < L →
      ((List.range L).foldl (fun mm i => updf mm i (g i (mm i))) m) k = g k (m k) := by
  intro L
  induction L with
  | zero => intro m k hk; omega
  | succ L ih =>
    intro m k hk
    rw [List.range_succ, List.foldl_append]
    simp only [List.foldl_cons, List.foldl_nil, updf]
    by_cases hkL : k = L
    · rw [if_pos hkL, hkL, foldl_updf_hi g L m L (Nat.le_refl L)]
    · rw [if_neg hkL]
      exact ih m k (by omega)

theorem if_bool_and (b c : Bool) : (if b then c else false) = (b && c) := by
  cases b <;> simp

theorem gettemp_zones (s : CState) (n : Nat) (r : Int) :
    (GetTemperature s n r).g_zones = s.g_zones := by
  rw [GetTemperature]
  split_ifs <;> rfl

theorem gettemp_quant (s : CState) (n : Nat) (r : Int) :
    (GetTemperature s n r).g_nSensorQuant = s.g_nSensorQuant := by
  rw [GetTemperature]
  split_ifs <;> rfl

theorem gettemp_sensor_zone (s : CState) (n : Nat) (r : Int) (m : Nat) :
    ((GetTemperature s n r).g_sensors m).nZone = (s.g_sensors m).nZone := by
  rw [GetTemperature]
  split_ifs <;> try rfl
  simp only [updf]
  split_ifs with h
  · rw [h]
  · rfl

theorem sstep_sensor_zone (readings : Nat → Int) (acc : CState × Bool × Bool) (n m : Nat) :
    ((sensorStep readings acc n).1.g_sensors m).nZone = (acc.1.g_sensors m).nZone := by
  simp only [sensorStep]
  exact gettemp_sensor_zone acc.1 n (readings n) m

theorem sstep_quant (readings : Nat → Int) (acc : CState × Bool × Bool) (n : Nat) :
    (sensorStep readings acc n).1.g_nSensorQuant = acc.1.g_nSensorQuant := by
  simp only [sensorStep]
  exact gettemp_quant acc.1 n (readings n)

theorem sstep_zones_other (readings : Nat → Int) (acc : CState × Bool × Bool) (n w : Nat)
    (hw : w ≠ (acc.1.g_sensors n).nZone) :
    (sensorStep readings acc n).1.g_zones w = acc.1.g_zones w := by
  have hz : ((GetTemperature acc.1 n (readings n)).g_sensors n).nZone = (acc.1.g_sensors n).nZone :=
    gettemp_sensor_zone acc.1 n (readings n) n
  simp only [sensorStep, updf]
  rw [hz, if_neg hw, gettemp_zones]

theorem sstep_outputs (readings : Nat → Int) (acc : CState × Bool × Bool) (n : Nat) :
    (sensorStep readings acc n).2.1
      = (acc.2.1 || ((sensorStep readings acc n).1.g_zones ((acc.1.g_sensors n).nZone)).bOn) ∧
    (sensorStep readings acc n).2.2
      = (acc.2.2 || (((sensorStep readings acc n).1.g_zones ((acc.1.g_sensors n).nZone)).bSpace
          && ((sensorStep readings acc n).1.g_zones ((acc.1.g_sensors n).nZone)).bOn)) := by
  have hz : ((GetTemperature acc.1 n (readings n)).g_sensors n).nZone = (acc.1.g_sensors n).nZone :=
    gettemp_sensor_zone acc.1 n (readings n) n
  refine ⟨?_, ?_⟩ <;> simp [sensorStep, updf, ← hz, if_bool_and]

theorem sfold_sensor_zone (readings : Nat → Int) :
    ∀ (L : List Nat) (acc : CState × Bool × Bool) (m : Nat),
      ((L.foldl (sensorStep readings) acc).1.g_sensors m).nZone = (acc.1.g_sensors m).nZone := by
  intro L
  induction L with
  | nil => intro acc m; rfl
  | cons a L ih =>
    intro acc m
    simp only [List.foldl_cons]
    rw [ih (sensorStep readings acc a) m, sstep_sensor_zone]

theorem sfold_zones_other (readings : Nat → Int) :
    ∀ (L : List Nat) (acc : CState × Bool × Bool) (w : Nat),
      (∀ n ∈ L, (acc.1.g_sensors n).nZone ≠ w) →
      (L.foldl (sensorStep readings) acc).1.g_zones w = acc.1.g_zones w := by
  intro L
  induction L with
  | nil => intro acc w _; rfl
  | cons a L ih =>
    intro acc w h
    simp only [List.foldl_cons]
    have h1 : ∀ n ∈ L, ((sensorStep readings acc a).1.g_sensors n).nZone ≠ w := by
      intro n hn
      rw [sstep_sensor_zone]
      exact h n (by simp [hn])
    rw [ih (sensorStep readings acc a) w h1,
        sstep_zones_other readings acc a w (fun heq => h a (by simp) heq.symm)]

theorem sfold_outputs (readings : Nat → Int) :
    ∀ (L : List Nat) (acc : CState × Bool × Bool),
      List.Pairwise (fun m n => (acc.1.g_sensors m).nZone ≠ (acc.1.g_sensors n).nZone) L →
      (L.foldl (sensorStep readings) acc).2.1
        = (acc.2.1 || L.any (fun n =>
            ((L.foldl (sensorStep readings) acc).1.g_zones ((acc.1.g_sensors n).nZone)).bOn)) ∧
      (L.foldl (sensorStep readings) acc).2.2
        = (acc.2.2 || L.any (fun n =>
            ((L.foldl (sensorStep readings) acc).1.g_zones ((acc.1.g_sensors n).nZone)).bSpace
              && ((L.foldl (sensorStep readings) acc).1.g_zones ((acc.1.g_sensors n).nZone)).bOn)) := by
  intro L
  induction L with
  | nil => intro acc _; simp
  | cons a L ih =>
    intro acc hpw
    obtain ⟨ha, hL⟩ := List.pairwise_cons.mp hpw
    have hLacc1 : List.Pairwise (fun m n =>
        ((sensorStep readings acc a).1.g_sensors m).nZone
          ≠ ((sensorStep readings acc a).1.g_sensors n).nZone) L := by
      refine hL.imp ?_
      intro x y hxy
      rw [sstep_sensor_zone, sstep_sensor_zone]
      exact hxy
    have hIH := ih (sensorStep readings acc a) hLacc1
    have hout := sstep_outputs readings acc a
    have hfroz : (L.foldl (sensorStep readings) (sensorStep readings acc a)).1.g_zones
        ((acc.1.g_sensors a).nZone)
        = (sensorStep readings acc a).1.g_zones ((acc.1.g_sensors a).nZone) := by
      apply sfold_zones_other
      intro n hn
      rw [sstep_sensor_zone]
      exact fun heq => (ha n hn) heq.symm
    simp only [List.foldl_cons, List.any_cons]
    constructor
    · rw [hIH.1, hout.1, hfroz]
      simp only [sstep_sensor_zone]
      rw [Bool.or_assoc]
    · rw [hIH.2, hout.2, hfroz]
      simp only [sstep_sensor_zone]
      rw [Bool.or_assoc]

theorem PE_frame (s : CState) :
    (ProcessEvents s).g_sensors = s.g_sensors ∧
    (ProcessEvents s).g_nSensorQuant = s.g_nSensorQuant := by
  have h := pefold_frame (List.range s.g_nEventQuant)
    { s with g_tsNextEvent := { nTime := 0xFFFF, nDay := s.g_tsNextEvent.nDay } }
  simp only [ProcessEvents]
  split_ifs
  · exact ⟨h.1, h.2.1⟩
  · exact ⟨h.1, h.2.1⟩

theorem cycleS1_sensors (s : CState) (now : timestamp) :
    (cycleS1 s now).g_sensors = s.g_sensors ∧
    (cycleS1 s now).g_nSensorQuant = s.g_nSensorQuant := by
  simp only [cycleS1]
  split_ifs
  · exact ⟨(PE_frame _).1, (PE_frame _).2⟩
  · exact ⟨rfl, rfl⟩

/-! Claim theorems, witnesses and counterexamples. -/

/-- C5 amended.  Provided no two sensors are assigned to the same zone, the
cycle's boiler output is the OR of the final on state over the zones that
have a sensor, and the pump output is that OR restricted to space-heating
zones.  (In general the claim fails: the accumulators latch each zone's
state at the moment its sensor is scanned, so a later sensor of the same
zone can turn the zone off after it was latched, and zones with no sensor
never contribute at all — see the counterexample.) -/
theorem C5_aggregation (s : CState) (now : timestamp) (readings : Nat → Int)
    (hdist : ∀ m n, m < n → n < s.g_nSensorQuant → (s.g_sensors m).nZone ≠ (s.g_sensors n).nZone) :
    (cycle s now readings).2.1
      = (List.range s.g_nSensorQuant).any
          (fun n => ((cycle s now readings).1.g_zones ((s.g_sensors n).nZone)).bOn) ∧
    (cycle s now readings).2.2
      = (List.range s.g_nSensorQuant).any
          (fun n => ((cycle s now readings).1.g_zones ((s.g_sensors n).nZone)).bSpace
              && ((cycle s now readings).1.g_zones ((s.g_sensors n).nZone)).bOn) := by
  have hsens := (cycleS1_sensors s now).1
  have hquant := (cycleS1_sensors s now).2
  have hpw : List.Pairwise (fun m n => ((cycleS1 s now).g_sensors m).nZone
      ≠ ((cycleS1 s now).g_sensors n).nZone) (List.range (cycleS1 s now).g_nSensorQuant) := by
    have hr := List.pairwise_lt_range (cycleS1 s now).g_nSensorQuant
    refine List.Pairwise.imp_of_mem ?_ hr
    intro a b hma hmb hlt
    rw [List.mem_range, hquant] at hmb
    rw [hsens]
    exact hdist a b hlt hmb
  have h := sfold_outputs readings (List.range (cycleS1 s now).g_nSensorQuant)
    (cycleS1 s now, false, false) hpw
  rw [cycle]
  constructor
  · rw [h.1]
    simp only [Bool.false_or, hquant, hsens]
  · rw [h.2]
    simp only [Bool.false_or, hquant, hsens]

/-- C5 witness: the amended aggregation at the one-sensor state sC5w. -/
theorem C5_witness :
    (cycle sC5w { nTime := 0, nDay := 1 } rC5).2.1
      = (List.range sC5w.g_nSensorQuant).any
          (fun n => ((cycle sC5w { nTime := 0, nDay := 1 } rC5).1.g_zones
              ((sC5w.g_sensors n).nZone)).bOn) ∧
    (cycle sC5w { nTime := 0, nDay := 1 } rC5).2.2
      = (List.range sC5w.g_nSensorQuant).any
          (fun n => ((cycle sC5w { nTime := 0, nDay := 1 } rC5).1.g_zones
              ((sC5w.g_sensors n).nZone)).bSpace
            && ((cycle sC5w { nTime := 0, nDay := 1 } rC5).1.g_zones
              ((sC5w.g_sensors n).nZone)).bOn) :=
  C5_aggregation sC5w { nTime := 0, nDay := 1 } rC5 (by
    intro m n hmn hn
    rw [show sC5w.g_nSensorQuant = 1 from rfl] at hn
    exact absurd hmn (by omega))

/-- C4 amended.  Zone z's 2-byte record (byte 0 the hysteresis, byte 1
exactly 1 when the space flag is set) is written by SaveZone at byte offset
EEPROM_ZONE_START + 2z = 100 + 2z — not 1100 as claimed: the source constant
EEPROM_ZONE_START is 100 (the 1100 figure appears only in a stale comment) —
no other byte is touched, and ReadConfig loads zone z back from the same
base-100 region (readZone). -/
theorem C4_zone_record_layout (s : CState) (z : Nat) (hz : z < 10) :
    (SaveZone s z).eeprom (z * EEPROM_ZONE_SIZE + EEPROM_ZONE_START) = (s.g_zones z).nHyst % 256 ∧
    (SaveZone s z).eeprom (z * EEPROM_ZONE_SIZE + EEPROM_ZONE_START + 1)
      = (if (s.g_zones z).bSpace then 1 else 0) ∧
    (∀ a, a ≠ z * EEPROM_ZONE_SIZE + EEPROM_ZONE_START →
      a ≠ z * EEPROM_ZONE_SIZE + EEPROM_ZONE_START + 1 → (SaveZone s z).eeprom a = s.eeprom a) ∧
    (ReadConfig s).g_zones z = readZone s.eeprom z (s.g_zones z) := by
  refine ⟨?_, ?_, ?_, ?_⟩
  · have hne : z * EEPROM_ZONE_SIZE + EEPROM_ZONE_START
        ≠ z * EEPROM_ZONE_SIZE + EEPROM_ZONE_START + 1 := by omega
    simp [SaveZone, EEPROMwrite, updf, hne]
  · simp only [SaveZone, EEPROMwrite, updf, if_true, eq_self_iff_true]
    split_ifs <;> rfl
  · intro a h1 h2
    simp only [SaveZone, EEPROMwrite, updf]
    rw [if_neg h2, if_neg h1]
  · simp only [ReadConfig]
    exact foldl_updf_get (readZone s.eeprom) 10 s.g_zones z hz

/-- C4 witness: the amended layout facts at the concrete state sC4, zone 3. -/
theorem C4_witness :
    (SaveZone sC4 3).eeprom (3 * EEPROM_ZONE_SIZE + EEPROM_ZONE_START) = (sC4.g_zones 3).nHyst % 256 ∧
    (ReadConfig sC4).g_zones 3 = readZone sC4.eeprom 3 (sC4.g_zones 3) :=
  have h := C4_zone_record_layout sC4 3 (by decide)
  ⟨h.1, h.2.2.2⟩

/-- C3 amended.  DeleteEvent with index not below the count leaves the state
unchanged.  With index < count it decrements the count by one and copies
record i+1 into slot i for i in [index, count) — one iteration MORE than the
claimed [index, count-1): the final iteration copies the stale record at
position count into slot count-1 (a slot beyond the new logical count), and
each visited slot, the stale one included, is persisted (all six record
bytes).  Every event originally at an index above the deleted one ends one
slot earlier with identical field values, order is preserved, and slots at
or above the old count keep their old contents apart from the logical
length change. -/
theorem C3_delete_shifts (s : CState) (idx : Nat) :
    (s.g_nEventQuant ≤ idx → DeleteEvent s idx = s) ∧
    (idx < s.g_nEventQuant →
      (DeleteEvent s idx).g_nEventQuant = s.g_nEventQuant - 1 ∧
      (∀ k, k < idx → (DeleteEvent s idx).g_events k = s.g_events k) ∧
      (∀ k, idx ≤ k → k < s.g_nEventQuant → (DeleteEvent s idx).g_events k = s.g_events (k + 1)) ∧
      (∀ k, s.g_nEventQuant ≤ k → (DeleteEvent s idx).g_events k = s.g_events k) ∧
      (∀ k o, idx ≤ k → k < s.g_nEventQuant → o < 6 →
        (DeleteEvent s idx).eeprom (k * EEPROM_EVENT_SIZE + EEPROM_EVENT_START + o)
          = eventByte (s.g_events (k + 1)) o)) := by
  constructor
  · intro h
    rw [DeleteEvent, if_pos h]
  · intro h
    simp only [DeleteEvent, if_neg (Nat.not_le.mpr h)]
    refine ⟨trivial, ?_, ?_, ?_, ?_⟩
    · intro k hk
      rw [shiftFrom_fst, if_neg (by omega)]
    · intro k h1 h2
      rw [shiftFrom_fst, if_pos (by omega)]
    · intro k hk
      rw [shiftFrom_fst, if_neg (by omega)]
    · intro k o h1 h2 ho
      exact shiftFrom_snd_slot (s.g_nEventQuant - idx) idx _ _ k o h1 (by omega) ho

/-- C3 witness: deleting index 0 of the two-event state sC3 shifts event 1
down, persists its day byte into slot 0, and decrements the count. -/
theorem C3_witness :
    (DeleteEvent sC3 0).g_nEventQuant = sC3.g_nEventQuant - 1 ∧
    (DeleteEvent sC3 0).g_events 0 = sC3.g_events 1 ∧
    (DeleteEvent sC3 0).eeprom (0 * EEPROM_EVENT_SIZE + EEPROM_EVENT_START + 0)
      = eventByte (sC3.g_events 1) 0 :=
  have h := (C3_delete_shifts sC3 0).2 (by decide)
  ⟨h.1, h.2.2.1 0 (Nat.le_refl 0) (by decide), h.2.2.2.2 0 0 (Nat.le_refl 0) (by decide) (by decide)⟩

/-- C2 amended.  If event i is due now (its day bitmask intersects today and
its time equals now) and no later event in scan order is also due now for
the same zone, then after ProcessEvents that zone's set-point equals event
i's value.  (Without the last-match side condition the claim fails: several
events due now for one zone are all applied in order and the last one wins,
see the counterexample.) -/
theorem C2_due_event_sets_setpoint (s : CState) (i : Nat) (hi : i < s.g_nEventQuant)
    (hm : (s.g_events i).nTime = s.g_tsNow.nTime ∧ ((s.g_events i).nDays &&& s.g_tsNow.nDay) ≠ 0)
    (hlast : ∀ j, i < j → j < s.g_nEventQuant →
      ((s.g_events j).nTime = s.g_tsNow.nTime ∧ ((s.g_events j).nDays &&& s.g_tsNow.nDay) ≠ 0) →
      (s.g_events j).nZone ≠ (s.g_events i).nZone) :
    ((ProcessEvents s).g_zones ((s.g_events i).nZone)).nSetpoint = (s.g_events i).nValue := by
  rw [PE_zones]
  set s0 : CState := { s with g_tsNextEvent := { nTime := 0xFFFF, nDay := s.g_tsNextEvent.nDay } } with hs0
  have hq : s.g_nEventQuant = (i + 1) + (s.g_nEventQuant - (i + 1)) := by omega
  rw [hq, List.range_add, List.foldl_append, List.range_succ, List.foldl_append]
  simp only [List.foldl_cons, List.foldl_nil]
  have hf0 := pefold_frame (List.range i) s0
  have hev : ((List.range i).foldl processEventStep s0).g_events = s.g_events := hf0.2.2.1
  have hnow : ((List.range i).foldl processEventStep s0).g_tsNow = s.g_tsNow := hf0.2.2.2.2.1
  have hfu := pestep_frame ((List.range i).foldl processEventStep s0) i
  have hset := pestep_zones_set ((List.range i).foldl processEventStep s0) i
    (by rw [hev, hnow]; exact hm)
  rw [hev] at hset
  rw [pefold_zone_frozen ((s.g_events i).nZone) _ _ ?_]
  · exact hset
  · intro j hj
    rw [hfu.2.2.1, hfu.2.2.2.2.1, hev, hnow]
    simp only [List.mem_map, List.mem_range] at hj
    obtain ⟨k, hk, rfl⟩ := hj
    intro hcond
    exact hlast (i + 1 + k) (by omega) (by omega) hcond.1 hcond.2

/-- C2 witness: the single due event of sC2w is applied within the same
evaluation. -/
theorem C2_witness :
    ((ProcessEvents sC2w).g_zones ((sC2w.g_events 0).nZone)).nSetpoint = (sC2w.g_events 0).nValue :=
  C2_due_event_sets_setpoint sC2w 0 (by decide) (by decide)
    (by intro j h1 h2 _
        rw [show sC2w.g_nEventQuant = 1 from rfl] at h2
        omega)

/-- C9 amended.  When no event matches today's day bit with a time strictly
after now, ProcessEvents sets the next-event minute to 0 and advances the
PRIOR next-event day bit by one position (wrapping past 127 back to bit 1):
the code shifts g_tsNextEvent.nDay, not today's bit, so the result equals
"today advanced by one" only when the prior next-event day bit was today's
(the normal case when invoked from the minute-boundary gate in loop). -/
theorem C9_no_more_today (s : CState)
    (h : ∀ j, j < s.g_nEventQuant →
      ¬(((s.g_events j).nDays &&& s.g_tsNow.nDay) ≠ 0 ∧ s.g_tsNow.nTime < (s.g_events j).nTime)) :
    (ProcessEvents s).g_tsNextEvent.nTime = 0 ∧
    (ProcessEvents s).g_tsNextEvent.nDay = wrapDay s.g_tsNextEvent.nDay := by
  simp only [ProcessEvents]
  have hfroz := pefold_next_frozen (List.range s.g_nEventQuant)
    { s with g_tsNextEvent := { nTime := 0xFFFF, nDay := s.g_tsNextEvent.nDay } } ?_
  · rw [hfroz, if_pos rfl]
    exact ⟨rfl, rfl⟩
  · intro j hj
    rw [List.mem_range] at hj
    exact h j hj

/-- C9 witness: the amended theorem at the concrete state sC9 (no events). -/
theorem C9_witness :
    (ProcessEvents sC9).g_tsNextEvent.nTime = 0 ∧
    (ProcessEvents sC9).g_tsNextEvent.nDay = wrapDay sC9.g_tsNextEvent.nDay :=
  C9_no_more_today sC9 (by
    intro j hj
    rw [show sC9.g_nEventQuant = 0 from rfl] at hj
    exact absurd hj (Nat.not_lt_zero j))

/-- C6 amended.  When a sensor's read fails (the -2000 error result), the
sensor's stored value is unchanged by its loop iteration — but the zone
evaluation still runs, on the retained stale value, so the zone's state
after this sensor's step is the hysteresis evaluation of the stale value
(which may well force a transition). -/
theorem C6_failed_read (acc : CState × Bool × Bool) (readings : Nat → Int) (n : Nat)
    (hr : readings n = -2000) :
    (∀ m, (sensorStep readings acc n).1.g_sensors m = acc.1.g_sensors m) ∧
    (sensorStep readings acc n).1.g_zones ((acc.1.g_sensors n).nZone)
      = evalZone (acc.1.g_zones ((acc.1.g_sensors n).nZone)) ((acc.1.g_sensors n).nValue) := by
  have hget : GetTemperature acc.1 n (readings n) = acc.1 := by
    simp [GetTemperature, hr]
  constructor
  · intro m
    simp [sensorStep, hget]
  · simp [sensorStep, hget, updf]

/-- C6 witness: the amended theorem applied to the concrete failing-read
state sC6. -/
theorem C6_witness :
    (sensorStep rFail (sC6, false, false) 0).1.g_sensors 0 = sC6.g_sensors 0 ∧
    (sensorStep rFail (sC6, false, false) 0).1.g_zones ((sC6.g_sensors 0).nZone)
      = evalZone (sC6.g_zones ((sC6.g_sensors 0).nZone)) ((sC6.g_sensors 0).nValue) :=
  ⟨(C6_failed_read (sC6, false, false) rFail 0 (by decide)).1 0,
   (C6_failed_read (sC6, false, false) rFail 0 (by decide)).2⟩

/-- C7.  At event count MAX_EVENTS (100) AddEvent returns leaving the whole
state — records, count, EEPROM — unchanged; at sensor count MAX_SENSORS (10)
with an address matching no stored sensor, AddSensor likewise returns with
the state unchanged.  (The C functions are void; "reports failure" is the
silent early return, plus a serial message in AddSensor.) -/
theorem C7_capacity (s : CState) (nZone nDays nTime : Nat) (nSetpoint : Int) (bSave : Bool)
    (pAddress : Nat → Nat) (zn : Nat) (reading : Int) :
    (s.g_nEventQuant = MAX_EVENTS → AddEvent s nZone nDays nTime nSetpoint bSave = s) ∧
    (s.g_nSensorQuant = MAX_SENSORS →
      (∀ n, n < s.g_nSensorQuant → addrMatch (fun i => pAddress i % 256) ((s.g_sensors n).address) = false) →
      AddSensor s pAddress zn reading = s) := by
  constructor
  · intro h
    rw [AddEvent, if_pos h.ge]
  · intro h hm
    simp only [AddSensor]
    rw [findDup_eq_none s _ hm]
    simp [h]

/-- C7 witness: both capacity refusals at the concrete full state sC7. -/
theorem C7_witness :
    AddEvent sC7 0 1 2 3 true = sC7 ∧ AddSensor sC7 (fun _ => 2) 0 0 = sC7 :=
  ⟨(C7_capacity sC7 0 1 2 3 true (fun _ => 2) 0 0).1 (by decide),
   (C7_capacity sC7 0 1 2 3 true (fun _ => 2) 0 0).2 (by decide) (by decide)⟩

/-- C1.  The claim states the specification's hysteresis rule: above the
set-point forces OFF, strictly below set-point minus hysteresis forces ON,
dead band retains; at setpoint=200, hysteresis=20, previous state OFF it
predicts 179 -> ON, 181 -> OFF, 201 -> OFF.  The code (`evalZone`, compiled
from loop() lines 141-145) divides the sensor value by 10 only in the second
comparison and runs both ifs in sequence, so 181 and 201 both come out ON:
the code contradicts its own unit comments (nValue is C/100, nSetpoint C/10),
a unit-conversion slip.  This theorem evaluates both the code and the spec
rule at the claimed inputs. -/
theorem C1_code_evaluation :
    (evalZone zC1 179).bOn = true ∧ (evalZone zC1 181).bOn = true ∧ (evalZone zC1 201).bOn = true ∧
    (specEvalZone zC1 179).bOn = true ∧ (specEvalZone zC1 181).bOn = false ∧
    (specEvalZone zC1 201).bOn = false := by decide

/-- C2 counterexample.  Two events both due now and both for zone 0: the
first one's value is not what the zone ends with (the later event in scan
order overwrites it), so the claim quantified over every event fails. -/
theorem C2_cex :
    ((sC2.g_events 0).nTime = sC2.g_tsNow.nTime ∧ ((sC2.g_events 0).nDays &&& sC2.g_tsNow.nDay) ≠ 0) ∧
    ((ProcessEvents sC2).g_zones (sC2.g_events 0).nZone).nSetpoint ≠ (sC2.g_events 0).nValue := by
  decide

/-- C3 counterexample.  With two events and a distinguishable stale record in
slot 2, deleting index 0 copies slot 2 into slot 1: the copy range is
[index, count), not the claimed [index, count-1), under which slot 1 would
have kept its old record. -/
theorem C3_cex :
    0 < sC3.g_nEventQuant ∧
    (DeleteEvent sC3 0).g_events 1 = sC3.g_events 2 ∧
    (DeleteEvent sC3 0).g_events 1 ≠ sC3.g_events 1 := by decide

/-- C4 counterexample.  Saving zone 0 (hysteresis 55, space flag set) leaves
bytes 1100/1101 untouched and writes the record at bytes 100/101:
EEPROM_ZONE_START is 100 in the source, not the claimed 1100. -/
theorem C4_cex :
    (sC4.g_zones 0).nHyst = 55 ∧
    (SaveZone sC4 0).eeprom 1100 = 0 ∧ (SaveZone sC4 0).eeprom 1101 = 0 ∧
    (SaveZone sC4 0).eeprom 100 = 55 ∧ (SaveZone sC4 0).eeprom 101 = 1 := by decide

/-- C5 counterexample.  Two sensors in zone 0: the first reading forces the
zone ON (latching the boiler and pump accumulators), the second forces it
OFF, so the cycle ends with every zone OFF yet both outputs true — the
outputs are not the OR of the zones' final states. -/
theorem C5_cex :
    (cycle sC5 { nTime := 0, nDay := 1 } rC5).2.1 = true ∧
    (cycle sC5 { nTime := 0, nDay := 1 } rC5).2.2 = true ∧
    anyZoneOn (cycle sC5 { nTime := 0, nDay := 1 } rC5).1 = false ∧
    anySpaceZoneOn (cycle sC5 { nTime := 0, nDay := 1 } rC5).1 = false := by decide

/-- C6 counterexample.  Sensor 0's read fails (-2000) yet its zone, ON before
the cycle, is forced OFF by the evaluation of the retained stale value: a
failed sensor still contributes forced transitions, contrary to the claim
(the stored value is indeed retained). -/
theorem C6_cex :
    ((cycle sC6 { nTime := 0, nDay := 1 } rFail).1.g_sensors 0).nValue = (sC6.g_sensors 0).nValue ∧
    (sC6.g_zones 0).bOn = true ∧
    ((cycle sC6 { nTime := 0, nDay := 1 } rFail).1.g_zones 0).bOn = false := by decide

/-- C8 amended.  When the given address matches a stored sensor (first match
at index n, all 8 bytes equal), AddSensor never increases the sensor count;
it sets the matched record's zone field, leaves its address and every other
sensor record unchanged, and additionally refreshes the matched record's
stored temperature value from the bus read it performs (the value stays as
it was only when that read fails) — so the zone field is not the only field
that can change, contrary to the claim's wording. -/
theorem C8_duplicate_sensor (s : CState) (pAddress : Nat → Nat) (nZone : Nat) (reading : Int)
    (n : Nat) (hq : s.g_nSensorQuant ≤ MAX_SENSORS) (hn : n < s.g_nSensorQuant)
    (hp : addrMatch (fun i => pAddress i % 256) ((s.g_sensors n).address) = true)
    (hf : ∀ m, m < n → addrMatch (fun i => pAddress i % 256) ((s.g_sensors m).address) = false) :
    (AddSensor s pAddress nZone reading).g_nSensorQuant = s.g_nSensorQuant ∧
    ((AddSensor s pAddress nZone reading).g_sensors n).address = (s.g_sensors n).address ∧
    ((AddSensor s pAddress nZone reading).g_sensors n).nZone = nZone % 256 ∧
    ((AddSensor s pAddress nZone reading).g_sensors n).nValue
      = (if reading = -2000 then (s.g_sensors n).nValue else reading) ∧
    (∀ m, m ≠ n → (AddSensor s pAddress nZone reading).g_sensors m = s.g_sensors m) := by
  have hfd := findDup_eq_some s (fun i => pAddress i % 256) n hn hp hf
  have hn10 : ¬(MAX_SENSORS ≤ n) := Nat.not_le.mpr (Nat.lt_of_lt_of_le hn hq)
  simp only [AddSensor, hfd, writeSensorZone, GetTemperature]
  rw [if_neg hn10]
  by_cases hr : reading = -2000
  · rw [if_pos hr, if_pos hr]
    refine ⟨rfl, ?_, ?_, ?_, ?_⟩
    · simp [updf]
    · simp [updf]
    · simp [updf]
    · intro m hm
      simp [updf, hm]
  · rw [if_neg hr, if_neg hr]
    refine ⟨rfl, ?_, ?_, ?_, ?_⟩
    · simp [updf]
    · simp [updf]
    · simp [updf]
    · intro m hm
      simp [updf, hm]

/-- C8 witness: the amended behaviour at the concrete duplicate-add state
sC8 (matched index 0, successful read 777). -/
theorem C8_witness :
    (AddSensor sC8 addrA 2 777).g_nSensorQuant = sC8.g_nSensorQuant ∧
    ((AddSensor sC8 addrA 2 777).g_sensors 0).address = (sC8.g_sensors 0).address ∧
    ((AddSensor sC8 addrA 2 777).g_sensors 0).nZone = 2 % 256 ∧
    ((AddSensor sC8 addrA 2 777).g_sensors 0).nValue
      = (if (777 : Int) = -2000 then (sC8.g_sensors 0).nValue else 777) :=
  have h := C8_duplicate_sensor sC8 addrA 2 777 0 (by decide) (by decide) (by decide)
    (fun m hm => absurd hm (Nat.not_lt_zero m))
  ⟨h.1, h.2.1, h.2.2.1, h.2.2.2.1⟩

/-- C8 counterexample.  Adding a sensor whose address equals the stored one
leaves the count alone and sets the zone, but also refreshes the matched
record's temperature value from the bus read (0 becomes 777): the operation
does not update only the zone field. -/
theorem C8_cex :
    addrMatch (fun i => addrA i % 256) ((sC8.g_sensors 0).address) = true ∧
    (AddSensor sC8 addrA 2 777).g_nSensorQuant = sC8.g_nSensorQuant ∧
    ((AddSensor sC8 addrA 2 777).g_sensors 0).nZone = 2 ∧
    (sC8.g_sensors 0).nValue = 0 ∧
    ((AddSensor sC8 addrA 2 777).g_sensors 0).nValue = 777 := by decide

/-- C9 counterexample.  With no events, now = (minute 500, Tuesday bit 4) and
a stale next-event day bit 1 (Sunday), ProcessEvents advances the stale
next-event day bit to 2 (Monday), not today's bit advanced by one (8,
Wednesday): the code shifts g_tsNextEvent.nDay, not g_tsNow.nDay. -/
theorem C9_cex :
    sC9.g_nEventQuant = 0 ∧ sC9.g_tsNow.nDay = 4 ∧ wrapDay sC9.g_tsNow.nDay = 8 ∧
    (ProcessEvents sC9).g_tsNextEvent.nTime = 0 ∧
    (ProcessEvents sC9).g_tsNextEvent.nDay = 2 ∧ (2 : Nat) ≠ 8 := by decide

/-- C10.  The claim says every access of the compaction loop stays within the
100 slots whenever index < count ≤ 100.  At the reachable maximum
count = 100 (AddEvent appends while count < 100, so 100 is reached), the
loop's final iteration reads slot 100 — one past the end of g_events: an
out-of-bounds read in the source. -/
theorem C10_delete_read_bound :
    100 ∈ deleteReadIndices 0 MAX_EVENTS ∧ ¬(100 < MAX_EVENTS) := by decide

end Heating
